import Mathlib

/-!
# Verification of the OpenZWave logging facility (Log.cpp)

A shallow embedding of `cpp/src/platform/Log.cpp`: the process-wide
logging singleton that owns an ordered vector of `i_LogImpl*` sinks, a
mutex, and a global `s_dologging` flag, and fans each `Write` call out to
every registered sink.

The embedding makes the global state explicit as a `LogState` record and
makes the externally observable actions (calls into sink objects, mutex
lock/unlock, sink construction and teardown, mutex creation and release)
explicit as a list of `Event`s returned by each operation, in the order
the C++ code performs them.  Sink objects (`i_LogImpl*` pointers) are
identified by natural numbers; the default `LogImpl` allocated by the
`Log` constructor receives a fresh id from a counter carried in the
state.  Variadic format arguments are abstracted into the format string,
which the dispatch code never inspects.
-/

namespace OZW

/-- The `LogLevel` enumeration of Log.h, in declaration order (the same
order as the `LogLevelString` name table at the top of Log.cpp):
Invalid, None, Always, Fatal, Error, Warning, Alert, Info, Detail,
Debug, StreamDetail, Internal. -/
inductive LogLevel : Type
  | Invalid
  | None
  | Always
  | Fatal
  | Error
  | Warning
  | Alert
  | Info
  | Detail
  | Debug
  | StreamDetail
  | Internal
  deriving DecidableEq, Repr

/-- Numeric value of each enumerator (C++ enums count from 0 in
declaration order); used for the comparison `_saveLevel > LogLevel_Always`. -/
def LogLevel.toNat : LogLevel → Nat
  | .Invalid => 0
  | .None => 1
  | .Always => 2
  | .Fatal => 3
  | .Error => 4
  | .Warning => 5
  | .Alert => 6
  | .Info => 7
  | .Detail => 8
  | .Debug => 9
  | .StreamDetail => 10
  | .Internal => 11

/-- The C++ comparison `_saveLevel > LogLevel_Always` on enum values. -/
def LogLevel.gtAlways (l : LogLevel) : Bool :=
  decide (l.toNat > LogLevel.Always.toNat)

/-- Externally observable actions performed by the logging core, in
program order: calls on sink objects (`i_LogImpl::Write`,
`i_LogImpl::SetLoggingState`, `i_LogImpl::SetLogFileName`, `delete`),
sink construction (`new LogImpl`), and the mutex operations. -/
inductive Event : Type
  | write (sink : Nat) (level : LogLevel) (nodeId : Nat) (format : String)
  | setSaveLevel (sink : Nat) (level : LogLevel)
  | setFileName (sink : Nat) (filename : String)
  | construct (sink : Nat)
  | teardown (sink : Nat)
  | mutexCreated
  | mutexReleased
  | lock
  | unlock
  deriving DecidableEq, Repr

/-- The process-wide state of Log.cpp: whether `s_instance` is non-NULL,
the static sink vector `m_pImpls` (sink object ids, insertion order),
the static flag `s_dologging`, and a counter supplying fresh ids for the
`LogImpl` objects the `Log` constructor allocates. -/
structure LogState : Type where
  s_instance : Bool
  m_pImpls : List Nat
  s_dologging : Bool
  nextImplId : Nat
  deriving DecidableEq, Repr

/-- The state at process start: `Log* Log::s_instance = NULL;`, an empty
`m_pImpls` vector, and `static bool s_dologging` zero-initialized. -/
def initState : LogState :=
  { s_instance := false, m_pImpls := [], s_dologging := false, nextImplId := 0 }

/-- The fan-out loop shared by both `Write` overloads: one
`(*it)->Write(_level, nodeId, _format, args)` per registered impl, in
vector order. -/
def fanout (impls : List Nat) (level : LogLevel) (nodeId : Nat) (format : String) : List Event :=
  impls.map (fun s => Event.write s level nodeId format)

/-- `Log::Write(LogLevel _level, char const* _format, ...)`: guarded by
`s_instance && s_dologging && m_pImpls.size() > 0`; locks the mutex
unconditionally ("double locks if recursive"), forwards
`(_level, 0, _format, args)` to every impl, unlocks.  Otherwise it
returns with no effect. -/
def Log.WriteG (st : LogState) (_level : LogLevel) (_format : String) : LogState × List Event :=
  if st.s_instance && st.s_dologging && decide (st.m_pImpls.length > 0) then
    (st, Event.lock :: (fanout st.m_pImpls _level 0 _format ++ [Event.unlock]))
  else
    (st, [])

/-- `Log::Write(LogLevel _level, uint8 const _nodeId, char const* _format, ...)`:
same guard; locks and unlocks only when `_level != LogLevel_Internal`,
and forwards `(_level, _nodeId, _format, args)` to every impl. -/
def Log.WriteN (st : LogState) (_level : LogLevel) (_nodeId : Nat) (_format : String) :
    LogState × List Event :=
  if st.s_instance && st.s_dologging && decide (st.m_pImpls.length > 0) then
    if _level ≠ LogLevel.Internal then
      (st, Event.lock :: (fanout st.m_pImpls _level _nodeId _format ++ [Event.unlock]))
    else
      (st, fanout st.m_pImpls _level _nodeId _format)
  else
    (st, [])

/-- The `Log::Log` constructor: allocates the mutex in the initializer
list, then pushes a default `LogImpl(_filename, _bAppend,
_bConsoleOutput, _saveLevel)` only when `m_pImpls.size() == 0`.  The
fresh impl takes the next free id.  Assigning the new object to
`s_instance` is done by the caller (`Create`). -/
def Log.construct (st : LogState) : LogState × List Event :=
  if st.m_pImpls.length = 0 then
    ({ st with m_pImpls := [st.nextImplId], nextImplId := st.nextImplId + 1 },
     [Event.mutexCreated, Event.construct st.nextImplId])
  else
    (st, [Event.mutexCreated])

/-- The `Log::~Log` destructor: releases the mutex, then deletes and
erases every impl in the vector, leaving it empty. -/
def Log.destruct (st : LogState) : LogState × List Event :=
  ({ st with m_pImpls := [] },
   Event.mutexReleased :: st.m_pImpls.map Event.teardown)

/-- `Log::Destroy()`: `delete s_instance; s_instance = NULL;`.  When
`s_instance` is NULL, `delete` invokes no destructor. -/
def Log.Destroy (st : LogState) : LogState × List Event :=
  if st.s_instance then
    ({ (Log.destruct st).1 with s_instance := false }, (Log.destruct st).2)
  else
    ({ st with s_instance := false }, [])

/-- `Log::Create(_filename, _bAppend, _bConsoleOutput, _saveLevel)`: when
`s_instance` is NULL, constructs the singleton and sets `s_dologging`
true; otherwise calls `Log::Destroy()` first and then constructs a fresh
one identically.  Returns the (now non-NULL) instance. -/
def Log.Create (st : LogState) (_filename : String) (_bAppend : Bool) (_bConsoleOutput : Bool)
    (_saveLevel : LogLevel) : LogState × List Event :=
  if !st.s_instance then
    ({ (Log.construct st).1 with s_instance := true, s_dologging := true },
     (Log.construct st).2)
  else
    ({ (Log.construct (Log.Destroy st).1).1 with s_instance := true, s_dologging := true },
     (Log.Destroy st).2 ++ (Log.construct (Log.Destroy st).1).2)

/-- `Log::SetLoggingClass(i_LogImpl *LogClass, bool Append)`: when
`Append` is false, deletes and erases every impl currently in
`m_pImpls`; then pushes `LogClass` onto the vector and returns true. -/
def Log.SetLoggingClass (st : LogState) ( LogClass : Nat) ( Append : Bool) :
    (LogState × List Event) × Bool :=
  if ! Append then
    (({ st with m_pImpls := [ LogClass] }, st.m_pImpls.map Event.teardown), true)
  else
    (({ st with m_pImpls := st.m_pImpls ++ [ LogClass] }, []), true)

/-- The literal format string of the banner message emitted on a
disabled-to-enabled transition. -/
def startedMsg : String := "Logging started\n\n"

/-- `Log::SetLoggingState(bool _dologging)`: records the previous flag,
assigns the new one, and on a false-to-true edge calls
`Write(LogLevel_Always, "Logging started\n\n")` through the normal
dispatch path. -/
def Log.SetLoggingStateBool (st : LogState) (_dologging : Bool) : LogState × List Event :=
  let prevLogging := st.s_dologging
  let st1 : LogState := { st with s_dologging := _dologging }
  if !prevLogging && st1.s_dologging then
    Log.WriteG st1 LogLevel.Always startedMsg
  else
    (st1, [])

/-- `Log::SetLoggingState(LogLevel _saveLevel)`: records the previous
flag, sets `s_dologging` to `_saveLevel > LogLevel_Always`; when
`s_instance && s_dologging && m_pImpls.size() > 0`, locks the mutex,
calls `SetLoggingState(_saveLevel)` on every impl in vector order, and
unlocks; finally, on a false-to-true edge of the flag, calls
`Write(LogLevel_Always, "Logging started\n\n")`. -/
def Log.SetLoggingStateLevel (st : LogState) (_saveLevel : LogLevel) : LogState × List Event :=
  let prevLogging := st.s_dologging
  let st1 : LogState := { st with s_dologging := LogLevel.gtAlways _saveLevel }
  let prop : LogState × List Event :=
    if st1.s_instance && st1.s_dologging && decide (st1.m_pImpls.length > 0) then
      (st1, Event.lock ::
        (st1.m_pImpls.map (fun s => Event.setSaveLevel s _saveLevel) ++ [Event.unlock]))
    else
      (st1, [])
  if !prevLogging && prop.1.s_dologging then
    ((Log.WriteG prop.1 LogLevel.Always startedMsg).1,
     prop.2 ++ (Log.WriteG prop.1 LogLevel.Always startedMsg).2)
  else
    prop

/-- `Log::GetLoggingState()`: returns `s_dologging`. -/
def Log.GetLoggingState (st : LogState) : Bool :=
  st.s_dologging

/-- `Log::SetLogFileName(const string &_filename)`: same guard and
acquire-fan-out-release pattern as `Write`, forwarding
`SetLogFileName(_filename)` to every impl. -/
def Log.SetLogFileName (st : LogState) (_filename : String) : LogState × List Event :=
  if st.s_instance && st.s_dologging && decide (st.m_pImpls.length > 0) then
    (st, Event.lock :: (st.m_pImpls.map (fun s => Event.setFileName s _filename) ++ [Event.unlock]))
  else
    (st, [])

/-- Recognizes the banner write events: `Write` calls at
`LogLevel_Always` with node id 0 carrying the "Logging started" format
string. -/
def Event.isStartedWrite : Event → Bool
  | .write _ .Always 0 f => f == startedMsg
  | _ => false

/-- Recognizes mutex acquisitions. -/
def Event.isLock : Event → Bool
  | .lock => true
  | _ => false

/-- Recognizes mutex releases after a critical section. -/
def Event.isUnlock : Event → Bool
  | .unlock => true
  | _ => false

/-- States reachable from process start through the public static API.
`SetLoggingClass` carries its documented precondition that the singleton
exists (calling it with `s_instance == NULL` dereferences a null
pointer's member and is outside the API's contract). -/
inductive Reachable : LogState → Prop where
  | init : Reachable initState
  | create (st : LogState) (f : String) (a c : Bool) (l : LogLevel) :
      Reachable st → Reachable (Log.Create st f a c l).1
  | destroy (st : LogState) : Reachable st → Reachable (Log.Destroy st).1
  | setClass (st : LogState) (lc : Nat) (ap : Bool) :
      Reachable st → st.s_instance = true → Reachable (Log.SetLoggingClass st lc ap).1.1
  | setStateBool (st : LogState) (b : Bool) :
      Reachable st → Reachable (Log.SetLoggingStateBool st b).1
  | setStateLevel (st : LogState) (l : LogLevel) :
      Reachable st → Reachable (Log.SetLoggingStateLevel st l).1
  | writeG (st : LogState) (l : LogLevel) (f : String) :
      Reachable st → Reachable (Log.WriteG st l f).1
  | writeN (st : LogState) (l : LogLevel) (n : Nat) (f : String) :
      Reachable st → Reachable (Log.WriteN st l n f).1
  | setFileName (st : LogState) (f : String) :
      Reachable st → Reachable (Log.SetLogFileName st f).1

/-- A concrete state with the singleton alive, logging enabled, and one
registered sink: the state right after a first `Create`. -/
def oneSinkState : LogState :=
  { s_instance := true, m_pImpls := [0], s_dologging := true, nextImplId := 1 }

/-! ## Frame lemmas on the embedded operations -/

theorem writeG_state (st : LogState) (l : LogLevel) (f : String) :
    (Log.WriteG st l f).1 = st := by
  unfold Log.WriteG
  split <;> rfl

theorem writeN_state (st : LogState) (l : LogLevel) (n : Nat) (f : String) :
    (Log.WriteN st l n f).1 = st := by
  unfold Log.WriteN
  split
  · split <;> rfl
  · rfl

theorem setLogFileName_state (st : LogState) (f : String) :
    (Log.SetLogFileName st f).1 = st := by
  unfold Log.SetLogFileName
  split <;> rfl

theorem setLoggingStateBool_state (st : LogState) (b : Bool) :
    (Log.SetLoggingStateBool st b).1 = { st with s_dologging := b } := by
  unfold Log.SetLoggingStateBool
  dsimp only
  split
  · rw [writeG_state]
  · rfl

theorem setLoggingStateLevel_state (st : LogState) (l : LogLevel) :
    (Log.SetLoggingStateLevel st l).1 = { st with s_dologging := LogLevel.gtAlways l } := by
  unfold Log.SetLoggingStateLevel
  dsimp only
  split <;> split <;> simp [writeG_state]

theorem setLoggingClass_state (st : LogState) (lc : Nat) (ap : Bool) :
    (Log.SetLoggingClass st lc ap).1.1 =
      { st with m_pImpls := (if ap then st.m_pImpls else []) ++ [lc] } := by
  unfold Log.SetLoggingClass
  cases ap <;> rfl

theorem create_instance (st : LogState) (f : String) (a c : Bool) (l : LogLevel) :
    (Log.Create st f a c l).1.s_instance = true := by
  unfold Log.Create
  split <;> rfl

/-- Invariant of the public API: whenever the singleton is absent, the
static sink vector is empty (`Destroy` empties it, the constructor
refills it, and `SetLoggingClass` requires a live singleton). -/
theorem Reachable.no_impls_of_no_instance (st : LogState) (h : Reachable st) :
    st.s_instance = false → st.m_pImpls = [] := by
  induction h with
  | init => intro _; rfl
  | create st f a c l _ _ =>
    intro hc
    rw [create_instance] at hc
    exact absurd hc (by simp)
  | destroy st _ ih =>
    intro _
    cases hb : st.s_instance <;> simp_all [Log.Destroy, Log.destruct]
  | setClass st lc ap _ hinst ih =>
    intro hc
    rw [setLoggingClass_state] at hc
    simp only at hc
    rw [hinst] at hc
    exact absurd hc (by simp)
  | setStateBool st b _ ih =>
    intro hc
    rw [setLoggingStateBool_state] at hc ⊢
    exact ih hc
  | setStateLevel st l _ ih =>
    intro hc
    rw [setLoggingStateLevel_state] at hc ⊢
    exact ih hc
  | writeG st l f _ ih =>
    intro hc
    rw [writeG_state] at hc ⊢
    exact ih hc
  | writeN st l n f _ ih =>
    intro hc
    rw [writeN_state] at hc ⊢
    exact ih hc
  | setFileName st f _ ih =>
    intro hc
    rw [setLogFileName_state] at hc ⊢
    exact ih hc

/-! ## The claims -/

/-- C1: For every call to Write (either overload, with any level, format
string and arguments), if no manager instance exists, or the global
enabled flag is false, or the registered sink list is empty, then the
call invokes no sink method, raises no error, and leaves all state
unchanged: both overloads return the state untouched with an empty event
trace. -/
theorem C1_write_quiet_noop (st : LogState) (lvl : LogLevel) (n : Nat) (fmt : String)
    (h : st.s_instance = false ∨ st.s_dologging = false ∨ st.m_pImpls = []) :
    Log.WriteG st lvl fmt = (st, []) ∧ Log.WriteN st lvl n fmt = (st, []) := by
  unfold Log.WriteG Log.WriteN
  rcases h with h | h | h <;> simp [h]

/-- Witness for C1 at the initial process state. -/
theorem C1_write_quiet_noop_witness :
    Log.WriteG initState LogLevel.Error "boom" = (initState, [])
    ∧ Log.WriteN initState LogLevel.Error 7 "boom" = (initState, []) :=
  C1_write_quiet_noop initState LogLevel.Error 7 "boom" (Or.inl rfl)

/-- C8: Calling Destroy when no instance exists raises no error and
leaves all state unchanged: the instance stays absent, the sink list is
untouched, no teardown event is produced. -/
theorem C8_destroy_absent_noop (st : LogState) (h : st.s_instance = false) :
    Log.Destroy st = (st, []) := by
  cases st
  simp_all [Log.Destroy]

/-- Witness for C8 at the initial process state. -/
theorem C8_destroy_absent_noop_witness : Log.Destroy initState = (initState, []) :=
  C8_destroy_absent_noop initState rfl

/-- C9: Destroy never modifies the process-wide enabled flag:
GetLoggingState returns the same value after Destroy as before it, for
every prior state. -/
theorem C9_destroy_preserves_flag (st : LogState) :
    Log.GetLoggingState (Log.Destroy st).1 = Log.GetLoggingState st := by
  unfold Log.Destroy Log.destruct Log.GetLoggingState
  split <;> rfl

/-- C10: SetLoggingState with a LogLevel argument updates the global
enabled flag to `saveLevel > Always` even when no instance exists or the
sink list is empty; in those cases only the flag changes and no sink
event (in particular no save-level propagation) is produced. -/
theorem C10_setLevel_flag_diverges (st : LogState) (lvl : LogLevel)
    (h : st.s_instance = false ∨ st.m_pImpls = []) :
    Log.SetLoggingStateLevel st lvl =
      ({ st with s_dologging := LogLevel.gtAlways lvl }, []) := by
  unfold Log.SetLoggingStateLevel Log.WriteG
  dsimp only
  rcases h with h | h <;> simp [h]

/-- Witness for C10 at the initial process state with level Debug. -/
theorem C10_setLevel_flag_diverges_witness :
    Log.SetLoggingStateLevel initState LogLevel.Debug =
      ({ initState with s_dologging := LogLevel.gtAlways LogLevel.Debug }, []) :=
  C10_setLevel_flag_diverges initState LogLevel.Debug (Or.inl rfl)

/-- C5: For every call to Create and every prior state: after Create
returns, exactly one instance exists (the instance flag is set) and the
global enabled flag is true; and when an instance already existed, the
event trace is exactly the old instance's teardown (mutex release, then
the deletion of every previously registered sink in order) followed by
the new instance's construction (mutex creation, then the default sink's
construction) — so every prior sink's teardown precedes the new default
sink's construction. -/
theorem C5_create_replaces (st : LogState) (f : String) (a c : Bool) (l : LogLevel) :
    (Log.Create st f a c l).1.s_instance = true
    ∧ (Log.Create st f a c l).1.s_dologging = true
    ∧ (st.s_instance = true →
        (Log.Create st f a c l).2 =
          (Event.mutexReleased :: st.m_pImpls.map Event.teardown) ++
            [Event.mutexCreated, Event.construct st.nextImplId]) := by
  refine ⟨?_, ?_, ?_⟩
  · exact create_instance st f a c l
  · unfold Log.Create
    split <;> rfl
  · intro h
    unfold Log.Create
    simp [h, Log.Destroy, Log.destruct, Log.construct]

/-- Witness for C5: a second Create on a live one-sink state. -/
theorem C5_create_replaces_witness :
    (Log.Create oneSinkState "ozwlog" false true LogLevel.Detail).1.s_instance = true
    ∧ (Log.Create oneSinkState "ozwlog" false true LogLevel.Detail).1.s_dologging = true
    ∧ (Log.Create oneSinkState "ozwlog" false true LogLevel.Detail).2 =
        (Event.mutexReleased :: oneSinkState.m_pImpls.map Event.teardown) ++
          [Event.mutexCreated, Event.construct oneSinkState.nextImplId] := by
  obtain ⟨h1, h2, h3⟩ := C5_create_replaces oneSinkState "ozwlog" false true LogLevel.Detail
  exact ⟨h1, h2, h3 rfl⟩

/-- C6: For every call to SetLoggingClass(sink, append=false) on a state
with a live instance: the event trace is exactly the teardown of every
previously registered sink, the resulting sink list is exactly [sink],
the call returns true, and a subsequent enabled Write forwards only to
the new sink. -/
theorem C6_setLoggingClass_replace (st : LogState) (sink : Nat) (h : st.s_instance = true) :
    (Log.SetLoggingClass st sink false).1.1.m_pImpls = [sink]
    ∧ (Log.SetLoggingClass st sink false).1.2 = st.m_pImpls.map Event.teardown
    ∧ (Log.SetLoggingClass st sink false).2 = true
    ∧ ∀ lvl fmt, st.s_dologging = true →
        (Log.WriteG (Log.SetLoggingClass st sink false).1.1 lvl fmt).2 =
          [Event.lock, Event.write sink lvl 0 fmt, Event.unlock] := by
  refine ⟨rfl, rfl, rfl, ?_⟩
  intro lvl fmt hd
  simp [Log.SetLoggingClass, Log.WriteG, fanout, h, hd]

/-- Witness for C6: replacing the sink of a live one-sink state. -/
theorem C6_setLoggingClass_replace_witness :
    (Log.SetLoggingClass oneSinkState 5 false).1.1.m_pImpls = [5]
    ∧ (Log.SetLoggingClass oneSinkState 5 false).1.2 =
        oneSinkState.m_pImpls.map Event.teardown
    ∧ (Log.SetLoggingClass oneSinkState 5 false).2 = true
    ∧ (Log.WriteG (Log.SetLoggingClass oneSinkState 5 false).1.1 LogLevel.Info "hello").2 =
        [Event.lock, Event.write 5 LogLevel.Info 0 "hello", Event.unlock] := by
  obtain ⟨h1, h2, h3, h4⟩ := C6_setLoggingClass_replace oneSinkState 5 rfl
  exact ⟨h1, h2, h3, h4 LogLevel.Info "hello" rfl⟩

/-- C7: Fan-out order equals insertion order: appending sinkA and then
sinkB (append=true, so nothing is removed or deduplicated — the prior
list is kept as a prefix, and duplicate registrations would remain)
yields the sink list `old ++ [A, B]`, and a subsequent enabled Write
emits its per-sink write events in exactly that order, so sinkA receives
the message before sinkB. -/
theorem C7_fanout_insertion_order (st : LogState) (A B : Nat) (lvl : LogLevel) (fmt : String)
    (h1 : st.s_instance = true) (h2 : st.s_dologging = true) :
    ((Log.SetLoggingClass (Log.SetLoggingClass st A true).1.1 B true).1.1).m_pImpls =
      st.m_pImpls ++ [A, B]
    ∧ (Log.WriteG ((Log.SetLoggingClass (Log.SetLoggingClass st A true).1.1 B true).1.1)
          lvl fmt).2 =
        Event.lock ::
          ((st.m_pImpls ++ [A, B]).map (fun s => Event.write s lvl 0 fmt) ++ [Event.unlock]) := by
  constructor
  · simp [Log.SetLoggingClass]
  · simp [Log.SetLoggingClass, Log.WriteG, fanout, h1, h2]

/-- Witness for C7: appending sinks 3 and 4 to the live one-sink state. -/
theorem C7_fanout_insertion_order_witness :
    ((Log.SetLoggingClass (Log.SetLoggingClass oneSinkState 3 true).1.1 4 true).1.1).m_pImpls =
      oneSinkState.m_pImpls ++ [3, 4]
    ∧ (Log.WriteG ((Log.SetLoggingClass (Log.SetLoggingClass oneSinkState 3 true).1.1 4
          true).1.1) LogLevel.Info "x").2 =
        Event.lock ::
          ((oneSinkState.m_pImpls ++ [3, 4]).map (fun s => Event.write s LogLevel.Info 0 "x") ++
            [Event.unlock]) :=
  C7_fanout_insertion_order oneSinkState 3 4 LogLevel.Info "x" rfl rfl

/-- C2 counterexample: the claim says an Internal-level Write forwards
to every sink without acquiring or releasing the mutex in BOTH
overloads.  On the live one-sink state, the overload without a node id
(`Write(LogLevel, char const*, ...)`) acquires the mutex even at the
Internal level, so its event trace is not lock-free. -/
theorem C2_counterexample :
    ¬ ((Log.WriteG oneSinkState LogLevel.Internal "internal message").2.all
        (fun e => !Event.isLock e && !Event.isUnlock e) = true) := by
  decide

/-- C2 amended: under the preconditions (instance exists, logging
enabled, sink list non-empty), an Internal-level Write through the
node-id overload forwards the message to every sink with no mutex
acquisition or release, while the overload without a node id locks and
unlocks the mutex even at the Internal level — still forwarding the
message to every sink in both cases. -/
theorem C2_internal_lock_discipline (st : LogState) (n : Nat) (fmt : String)
    (h1 : st.s_instance = true) (h2 : st.s_dologging = true) (h3 : st.m_pImpls ≠ []) :
    (Log.WriteN st LogLevel.Internal n fmt).2 = fanout st.m_pImpls LogLevel.Internal n fmt
    ∧ (∀ e ∈ (Log.WriteN st LogLevel.Internal n fmt).2,
        Event.isLock e = false ∧ Event.isUnlock e = false)
    ∧ (Log.WriteG st LogLevel.Internal fmt).2 =
        Event.lock :: (fanout st.m_pImpls LogLevel.Internal 0 fmt ++ [Event.unlock]) := by
  have hlen : 0 < st.m_pImpls.length := List.length_pos.mpr h3
  have heq : (Log.WriteN st LogLevel.Internal n fmt).2 =
      fanout st.m_pImpls LogLevel.Internal n fmt := by
    simp [Log.WriteN, h1, h2, hlen]
  refine ⟨heq, ?_, ?_⟩
  · intro e he
    rw [heq] at he
    simp only [fanout, List.mem_map] at he
    obtain ⟨s, _, rfl⟩ := he
    exact ⟨rfl, rfl⟩
  · simp [Log.WriteG, h1, h2, hlen]

/-- Witness for the amended C2 on the live one-sink state. -/
theorem C2_internal_lock_discipline_witness :
    (Log.WriteN oneSinkState LogLevel.Internal 2 "m").2 =
      fanout oneSinkState.m_pImpls LogLevel.Internal 2 "m"
    ∧ (∀ e ∈ (Log.WriteN oneSinkState LogLevel.Internal 2 "m").2,
        Event.isLock e = false ∧ Event.isUnlock e = false)
    ∧ (Log.WriteG oneSinkState LogLevel.Internal "m").2 =
        Event.lock :: (fanout oneSinkState.m_pImpls LogLevel.Internal 0 "m" ++ [Event.unlock]) :=
  C2_internal_lock_discipline oneSinkState 2 "m" rfl rfl (by decide)

/-- C4: SetLoggingState with a LogLevel argument sets the global enabled
flag to `saveLevel > Always`; and when that flag is true, an instance
exists and the sink list is non-empty, the event trace begins with the
mutex acquisition, then one save-level propagation per registered sink in
insertion order, then the mutex release (followed only by the possible
"Logging started" banner events). -/
theorem C4_setLevel_propagates (st : LogState) (lvl : LogLevel) :
    (Log.SetLoggingStateLevel st lvl).1.s_dologging = LogLevel.gtAlways lvl
    ∧ (LogLevel.gtAlways lvl = true → st.s_instance = true → st.m_pImpls ≠ [] →
        ∃ rest, (Log.SetLoggingStateLevel st lvl).2 =
          Event.lock ::
            (st.m_pImpls.map (fun s => Event.setSaveLevel s lvl) ++ (Event.unlock :: rest))) := by
  constructor
  · rw [setLoggingStateLevel_state]
  · intro hg hi hne
    have hlen : 0 < st.m_pImpls.length := List.length_pos.mpr hne
    unfold Log.SetLoggingStateLevel
    dsimp only
    cases hd : st.s_dologging
    · refine ⟨(Log.WriteG { st with s_dologging := LogLevel.gtAlways lvl }
        LogLevel.Always startedMsg).2, ?_⟩
      simp [hg, hi, hlen, hd]
    · refine ⟨[], ?_⟩
      simp [hg, hi, hlen, hd]

/-- Witness for C4: enabling at level Info on a disabled one-sink state. -/
theorem C4_setLevel_propagates_witness :
    (Log.SetLoggingStateLevel oneSinkState LogLevel.Info).1.s_dologging =
      LogLevel.gtAlways LogLevel.Info
    ∧ ∃ rest, (Log.SetLoggingStateLevel oneSinkState LogLevel.Info).2 =
        Event.lock ::
          (oneSinkState.m_pImpls.map (fun s => Event.setSaveLevel s LogLevel.Info) ++
            (Event.unlock :: rest)) := by
  obtain ⟨h1, h2⟩ := C4_setLevel_propagates oneSinkState LogLevel.Info
  exact ⟨h1, h2 (by decide) rfl (by decide)⟩

theorem fanout_cons (a : Nat) (t : List Nat) (l : LogLevel) (n : Nat) (f : String) :
    fanout (a :: t) l n f = Event.write a l n f :: fanout t l n f := rfl

/-- Every event of a banner fan-out is a banner write, so filtering for
the banner recovers exactly one write per sink, in order. -/
theorem filter_started_fanout (impls : List Nat) :
    (fanout impls LogLevel.Always 0 startedMsg).filter Event.isStartedWrite =
      impls.map (fun s => Event.write s LogLevel.Always 0 startedMsg) := by
  induction impls with
  | nil => rfl
  | cons a t ih =>
    simp [fanout_cons, List.filter_cons, Event.isStartedWrite, ih]

/-- Save-level propagation events are never banner writes. -/
theorem filter_started_save (impls : List Nat) (lvl : LogLevel) :
    (impls.map (fun s => Event.setSaveLevel s lvl)).filter Event.isStartedWrite = [] := by
  induction impls with
  | nil => rfl
  | cons a t ih =>
    simp [List.filter_cons, Event.isStartedWrite, ih]

/-- C3: On every transition of the global enabled flag from disabled to
enabled — via SetLoggingState(bool) or SetLoggingState(LogLevel) — the
banner write events in the call's trace are exactly one "Logging
started" write at level Always per current sink, and on
enabled-to-enabled or disabled-to-disabled transitions no banner write
is produced.  Stated over states reachable through the public API
(whenever the singleton is absent the sink list is empty). -/
theorem C3_logging_started_banner (st : LogState) (h : Reachable st) (b : Bool)
    (lvl : LogLevel) :
    ((Log.SetLoggingStateBool st b).2.filter Event.isStartedWrite =
      if st.s_dologging = false ∧ b = true then
        st.m_pImpls.map (fun s => Event.write s LogLevel.Always 0 startedMsg)
      else [])
    ∧ ((Log.SetLoggingStateLevel st lvl).2.filter Event.isStartedWrite =
      if st.s_dologging = false ∧ LogLevel.gtAlways lvl = true then
        st.m_pImpls.map (fun s => Event.write s LogLevel.Always 0 startedMsg)
      else []) := by
  have hinv := Reachable.no_impls_of_no_instance st h
  constructor
  · unfold Log.SetLoggingStateBool
    dsimp only
    cases hd : st.s_dologging
    · cases b
      · simp
      · cases hi : st.s_instance
        · have he : st.m_pImpls = [] := hinv hi
          simp [Log.WriteG, hi, he]
        · by_cases hne : st.m_pImpls = []
          · simp [Log.WriteG, hne]
          · have hlen : 0 < st.m_pImpls.length := List.length_pos.mpr hne
            simp [Log.WriteG, hi, hlen, List.filter_cons, List.filter_append,
              Event.isStartedWrite, filter_started_fanout]
    · simp
  · unfold Log.SetLoggingStateLevel
    dsimp only
    cases hd : st.s_dologging
    · cases hg : LogLevel.gtAlways lvl
      · simp [hg]
      · cases hi : st.s_instance
        · have he : st.m_pImpls = [] := hinv hi
          simp [Log.WriteG, hi, he, hg]
        · by_cases hne : st.m_pImpls = []
          · simp [Log.WriteG, hne, hg]
          · have hlen : 0 < st.m_pImpls.length := List.length_pos.mpr hne
            simp [Log.WriteG, hi, hg, hlen, List.filter_cons, List.filter_append,
              Event.isStartedWrite, filter_started_fanout, filter_started_save]
    · rw [if_neg (by simp)]
      split
      · simp [List.filter_cons, List.filter_append, Event.isStartedWrite,
          filter_started_save]
      · simp

/-- A concrete reachable state with a live singleton, one sink, and
logging disabled: Create from process start, then SetLoggingState(false). -/
def disabledOneSinkState : LogState :=
  (Log.SetLoggingStateBool
    (Log.Create initState "ozwlog" false true LogLevel.Detail).1 false).1

theorem disabledOneSinkState_reachable : Reachable disabledOneSinkState :=
  Reachable.setStateBool _ false
    (Reachable.create initState "ozwlog" false true LogLevel.Detail Reachable.init)

/-- Witness for C3: enabling by flag and by level Debug on a reachable
disabled one-sink state. -/
theorem C3_logging_started_banner_witness :
    ((Log.SetLoggingStateBool disabledOneSinkState true).2.filter Event.isStartedWrite =
      if disabledOneSinkState.s_dologging = false ∧ true = true then
        disabledOneSinkState.m_pImpls.map (fun s => Event.write s LogLevel.Always 0 startedMsg)
      else [])
    ∧ ((Log.SetLoggingStateLevel disabledOneSinkState LogLevel.Debug).2.filter
        Event.isStartedWrite =
      if disabledOneSinkState.s_dologging = false ∧ LogLevel.gtAlways LogLevel.Debug = true then
        disabledOneSinkState.m_pImpls.map (fun s => Event.write s LogLevel.Always 0 startedMsg)
      else []) :=
  C3_logging_started_banner disabledOneSinkState disabledOneSinkState_reachable true
    LogLevel.Debug

end OZW
